import Mathlib

/-!
Verification development for the wf-recorder frame writer
(`src/frame-writer.cpp`), a single-stream video encoding pipeline built on
an opaque codec/container engine.  The definitions below are a shallow
embedding of the C++ source: pure computations (pixel-format negotiation,
option merging, stride/origin arithmetic, timestamp rescaling) are
translated directly, and the stateful encode/mux pipeline is modelled as
explicit state passing over an abstract encoder.  The underlying
codec/container library is out of scope and is treated as an opaque engine
with its documented interface semantics.
-/

set_option autoImplicit false

namespace WfRecorder

/-- Pixel formats used by the frame writer.  `NONE` is the engine's
end-of-list sentinel (`AV_PIX_FMT_NONE`); `other n` stands for any further
format the engine might advertise. -/
inductive AVPixelFormat where
  | NONE
  | BGR0
  | RGB0
  | YUV420P
  | NV12
  | VAAPI
  | other : Nat → AVPixelFormat
deriving DecidableEq, Repr

/-- The caller's native input layout (`enum InputFormat` in the header). -/
inductive InputFormat where
  | BGR0
  | RGB0
deriving DecidableEq, Repr

/-- Configuration structure (`FrameWriterParams`). -/
structure FrameWriterParams where
  file : String
  width : Nat
  height : Nat
  format : InputFormat
  codec : String
  codec_options : List (String × String)
  hw_device : String
  enable_ffmpeg_debug_output : Bool
deriving DecidableEq, Repr

/-- Substring search on character lists: true iff `needle` occurs as a
contiguous substring of the remaining haystack.  Models
`std::string::find(needle) != npos`. -/
def charsContain (needle : List Char) : List Char → Bool
  | [] => needle.isEmpty
  | c :: t => needle.isPrefixOf (c :: t) || charsContain needle t

/-- `hay.find(needle) != std::string::npos`. -/
def strFindHit (hay needle : String) : Bool :=
  charsContain needle.data hay.data

/-- `is_fmt_supported` (frame-writer.cpp:94): scan the supported-format
array, stopping at the `AV_PIX_FMT_NONE` sentinel. -/
def is_fmt_supported (fmt : AVPixelFormat) : List AVPixelFormat → Bool
  | [] => false
  | f :: rest =>
    if f = AVPixelFormat.NONE then false
    else if f = fmt then true
    else is_fmt_supported fmt rest

/-- `FrameWriter::get_input_format` (frame-writer.cpp:105). -/
def get_input_format (params : FrameWriterParams) : AVPixelFormat :=
  if params.format = InputFormat.BGR0 then AVPixelFormat.BGR0
  else AVPixelFormat.RGB0

/-- `FrameWriter::choose_sw_format` (frame-writer.cpp:111): the caller's
native format if supported, else YUV420P if supported, else the first
entry of the codec's supported-format array (`codec->pix_fmts[0]`). -/
def choose_sw_format (params : FrameWriterParams)
    (codec_pix_fmts : List AVPixelFormat) : AVPixelFormat :=
  let in_fmt := get_input_format params
  if is_fmt_supported in_fmt codec_pix_fmts then in_fmt
  else if is_fmt_supported AVPixelFormat.YUV420P codec_pix_fmts then
    AVPixelFormat.YUV420P
  else codec_pix_fmts.headD AVPixelFormat.NONE

/-- Format negotiation as worded in the spec (§4.1): ordered preference
over a plain capability list (no sentinel), first match wins.  Used only
to compare against `choose_sw_format`. -/
def negotiator_spec (in_fmt : AVPixelFormat)
    (caps : List AVPixelFormat) : AVPixelFormat :=
  if in_fmt ∈ caps then in_fmt
  else if AVPixelFormat.YUV420P ∈ caps then AVPixelFormat.YUV420P
  else caps.headD AVPixelFormat.NONE

/-- The static `default_x264_options` map (frame-writer.cpp:71), listed in
`std::map` (sorted-key) iteration order. -/
def default_x264_options : List (String × String) :=
  [("crf", "20"), ("preset", "ultrafast"), ("tune", "zerolatency")]

/-- One step of default seeding: insert the pair only when the key is
absent (`!params.codec_options.count(param.first)`). -/
def seedDefault (acc : List (String × String)) (kv : String × String) :
    List (String × String) :=
  if (acc.lookup kv.1).isSome then acc else acc ++ [kv]

/-- `FrameWriter::load_codec_options` (frame-writer.cpp:69): when the codec
name contains "libx264" or "libx265", seed the three defaults for absent
keys; the resulting key/value set is what gets applied to the codec's
option dictionary, so we return it directly. -/
def load_codec_options (codec : String)
    (codec_options : List (String × String)) : List (String × String) :=
  if strFindHit codec "libx264" || strFindHit codec "libx265" then
    default_x264_options.foldl seedDefault codec_options
  else codec_options

/-- `av_rescale_rnd(a, b, c, AV_ROUND_NEAR_INF)` from the engine: round
`a*b/c` to nearest, halfway cases away from zero.  For `a < 0` the engine
recurses on `-a` and negates. -/
def av_rescale_rnd_near (a b c : Int) : Int :=
  if a < 0 then -(((-a) * b + c / 2) / c)
  else (a * b + c / 2) / c

/-- `av_rescale_q(a, bq, cq)` with near-inf rounding:
`av_rescale_rnd(a, bq.num*cq.den, cq.num*bq.den)`. -/
def av_rescale_q (a bq_num bq_den cq_num cq_den : Int) : Int :=
  av_rescale_rnd_near a (bq_num * cq_den) (cq_num * bq_den)

/-- A compressed packet produced by the encoder: presentation timestamp
(in the pipeline's millisecond clock, as assigned to the frame at
frame-writer.cpp:297) and an opaque payload identifier. -/
structure Packet where
  pts : Int
  payload : Nat
deriving DecidableEq, Repr

/-- Observable calls the frame writer makes into the Muxer. -/
inductive MuxEvent where
  | header
  | packet (ts : Int) (payload : Nat)
  | trailer
deriving DecidableEq, Repr

/-- `FrameWriter::finish_frame` (frame-writer.cpp:309): rescale the
packet's timestamp from the 1/1000 clock to the stream time base, which
`init_codec` fixed to 1/60 (frame-writer.cpp:149,177 with `FPS = 60`),
then write the packet to the container. -/
def finish_frame_event (p : Packet) : MuxEvent :=
  MuxEvent.packet (av_rescale_q p.pts 1 1000 1 60) p.payload

/-- Behaviour of the opaque encoder (`avcodec_encode_video2` with a
non-null frame): given its internal buffer of pending packets and the pts
of the submitted frame, it returns the new buffer and at most one output
packet.  Left abstract so theorems hold for every encoder behaviour. -/
def EncFun : Type :=
  List Packet → Int → List Packet × Option Packet

/-- `FrameWriter::add_frame` (frame-writer.cpp:260), projected onto the
packet/mux-event level.  `hw_active` records whether `hw_device_context`
is set; `transfer_ok` is the outcome of `av_hwframe_transfer_data`: on the
hardware path a failed transfer logs and returns, dropping the frame
before any encoder work.  Otherwise the frame (pts = `msec`) goes to the
encoder and a produced packet is forwarded via `finish_frame`. -/
def add_frame (hw_active : Bool) (f : EncFun) (st : List Packet)
    (msec : Int) (transfer_ok : Bool) : List Packet × List MuxEvent :=
  if hw_active && !transfer_ok then (st, [])
  else
    let r := f st msec
    match r.2 with
    | some p => (r.1, [finish_frame_event p])
    | none => (r.1, [])

/-- Run a whole sequence of `add_frame` calls; inputs carry the submitted
millisecond timestamp and the hardware-transfer outcome for that call. -/
def run_frames (hw_active : Bool) (f : EncFun) :
    List Packet → List (Int × Bool) → List Packet × List MuxEvent
  | st, [] => (st, [])
  | st, (m, ok) :: rest =>
    let r := add_frame hw_active f st m ok
    let r2 := run_frames hw_active f r.1 rest
    (r2.1, r.2 ++ r2.2)

/-- Companion to `run_frames` that returns the packets the encoder
emitted (in production order) instead of mux events, together with the
final internal buffer. -/
def run_emitted (hw_active : Bool) (f : EncFun) :
    List Packet → List (Int × Bool) → List Packet × List Packet
  | st, [] => (st, [])
  | st, (m, ok) :: rest =>
    if hw_active && !ok then run_emitted hw_active f st rest
    else
      let r := f st m
      let r2 := run_emitted hw_active f r.1 rest
      (r2.1, r.2.toList ++ r2.2)

/-- The destructor's drain loop (frame-writer.cpp:326): call the encoder
with no new input until `got_output` is 0, forwarding each produced packet
through `finish_frame`.  The opaque encoder's documented flush semantics:
each flush call pops the next buffered packet; no output once empty. -/
def drain_loop : List Packet → List MuxEvent
  | [] => []
  | p :: rest => finish_frame_event p :: drain_loop rest

/-- `FrameWriter::~FrameWriter`, mux-visible part (frame-writer.cpp:323):
drain the encoder, then write the container trailer. -/
def destructor_events (st : List Packet) : List MuxEvent :=
  drain_loop st ++ [MuxEvent.trailer]

/-- The Muxer-visible trace of a whole session: `init_codec` writes the
container header (frame-writer.cpp:186) before any frame is submitted,
then each `add_frame` may write a packet, then the destructor drains and
writes the trailer. -/
def session_trace (hw_active : Bool) (f : EncFun)
    (inputs : List (Int × Bool)) : List MuxEvent :=
  let r := run_frames hw_active f [] inputs
  MuxEvent.header :: (r.2 ++ destructor_events r.1)

/-- Resources acquired by the constructor/`init_codec`/`init_hw_accel`. -/
inductive Resource where
  | fmtCtx
  | hwDeviceCtx
  | hwFrameCtx
  | swsCtx
  | codecOpen
  | avioHandle
  | encoderFrame
  | hwFrame
deriving DecidableEq, Repr

/-- Device constraints reported by `av_hwdevice_get_hwframe_constraints`. -/
structure HwConstraints where
  valid_hw_formats : List AVPixelFormat
deriving DecidableEq, Repr

/-- The hardware path is taken iff the codec name contains "vaapi"
(frame-writer.cpp:151). -/
def hw_requested (params : FrameWriterParams) : Bool :=
  strFindHit params.codec "vaapi"

/-- Result of construction, as far as the claims observe it. -/
structure InitModel where
  hw_active : Bool
  pix_fmt : AVPixelFormat
  hw_device_format : Option AVPixelFormat
  hw_sw_format : Option AVPixelFormat
  chose_sw : Bool
  sws_created : Bool
  acquired : List Resource
deriving DecidableEq, Repr

/-- `FrameWriter::FrameWriter` together with `init_codec` and
`init_hw_accel` (frame-writer.cpp:206,127,25), on the successful path.
Hardware branch (codec name contains "vaapi"): `codecCtx->pix_fmt` is
`AV_PIX_FMT_VAAPI`, the device-side format is
`cst->valid_hw_formats[0]`, `ctx->sw_format` is NV12, and
`choose_sw_format`/`init_sws` never run.  Software branch:
`choose_sw_format` picks the pixel format and `init_sws` always runs.
`acquired` lists owned resources in acquisition order. -/
def init_model (params : FrameWriterParams)
    (codec_pix_fmts : List AVPixelFormat) (cst : HwConstraints) :
    InitModel :=
  if hw_requested params then
    { hw_active := true
      pix_fmt := AVPixelFormat.VAAPI
      hw_device_format := some (cst.valid_hw_formats.headD AVPixelFormat.NONE)
      hw_sw_format := some AVPixelFormat.NV12
      chose_sw := false
      sws_created := false
      acquired := [Resource.fmtCtx, Resource.hwDeviceCtx,
        Resource.hwFrameCtx, Resource.codecOpen, Resource.avioHandle,
        Resource.encoderFrame, Resource.hwFrame] }
  else
    { hw_active := false
      pix_fmt := choose_sw_format params codec_pix_fmts
      hw_device_format := none
      hw_sw_format := none
      chose_sw := true
      sws_created := true
      acquired := [Resource.fmtCtx, Resource.swsCtx, Resource.codecOpen,
        Resource.avioHandle, Resource.encoderFrame] }

/-- Resources the destructor releases, in release order
(frame-writer.cpp:336): `avio_closep` (unless the output format is
file-less), `avcodec_close`, `sws_freeContext` (a no-op null on the
hardware path), `av_frame_free(encoder_frame)`,
`avformat_free_context`.  The hardware device context, hardware frame
context and hardware frame are never released (frame-writer.cpp:344,
`// TODO: free all the hw accel`). -/
def destructor_released (sws_created nofile : Bool) : List Resource :=
  (if nofile then [] else [Resource.avioHandle]) ++
    [Resource.codecOpen] ++
    (if sws_created then [Resource.swsCtx] else []) ++
    [Resource.encoderFrame, Resource.fmtCtx]

/-- The three-way routing in `add_frame` (frame-writer.cpp:271-295). -/
inductive FramePath where
  | hwUpload
  | zeroCopy
  | swsConvert
deriving DecidableEq, Repr

/-- Which conversion path `add_frame` takes: hardware upload when
`hw_device_context` is set; otherwise zero-copy when the input format is
already the codec's pixel format; otherwise `sws_scale`. -/
def add_frame_route (hw_active : Bool)
    (in_fmt pix_fmt : AVPixelFormat) : FramePath :=
  if hw_active then FramePath.hwUpload
  else if in_fmt = pix_fmt then FramePath.zeroCopy
  else FramePath.swsConvert

/-- Effective (origin offset, stride) of the submitted buffer
(frame-writer.cpp:262-269): stride is `4 * width` bytes; with `y_invert`
the origin moves to the start of the last row and the stride is negated. -/
def effective_layout (width height : Nat) (y_invert : Bool) : Int × Int :=
  let stride : Int := 4 * width
  if y_invert then (stride * ((height : Int) - 1), -stride)
  else (0, stride)

/-- Byte offset of the `i`-th row as presented to the conversion/encode
step: origin plus `i` times the effective stride. -/
def row_addr (width height : Nat) (y_invert : Bool) (i : Nat) : Int :=
  (effective_layout width height y_invert).1 +
    (effective_layout width height y_invert).2 * i

/-- Sample software-path configuration: H.264 software codec, BGR0 input,
with a (unused) render-node path in `hw_device`. -/
def sw_sample_params : FrameWriterParams :=
  { file := "recording.mp4"
    width := 640
    height := 480
    format := InputFormat.BGR0
    codec := "libx264"
    codec_options := []
    hw_device := "/dev/dri/renderD128"
    enable_ffmpeg_debug_output := false }

/-- Sample hardware-path configuration: VAAPI codec. -/
def hw_sample_params : FrameWriterParams :=
  { file := "recording.mp4"
    width := 640
    height := 480
    format := InputFormat.BGR0
    codec := "h264_vaapi"
    codec_options := []
    hw_device := "/dev/dri/renderD128"
    enable_ffmpeg_debug_output := false }

/-- Sample device constraints for the hardware path. -/
def sample_constraints : HwConstraints :=
  HwConstraints.mk [AVPixelFormat.VAAPI]

/-- A concrete encoder behaviour for witnesses: emit one packet per
submitted frame, carrying the frame's pts, with no buffering. -/
def pts_echo_encoder : EncFun :=
  fun buf m => (buf, some { pts := m, payload := 0 })

/-! ### Association-list lemmas for the option loader -/

theorem lookup_append_of_some {α β : Type} [BEq α] {l₁ l₂ : List (α × β)}
    {k : α} {v : β} (h : l₁.lookup k = some v) :
    (l₁ ++ l₂).lookup k = some v := by
  induction l₁ with
  | nil => simp [List.lookup] at h
  | cons p t ih =>
    obtain ⟨a, b⟩ := p
    cases hbeq : k == a <;> simp [List.lookup, hbeq] at h ⊢
    · exact ih h
    · exact h

theorem lookup_append_of_none {α β : Type} [BEq α] {l₁ l₂ : List (α × β)}
    {k : α} (h : l₁.lookup k = none) :
    (l₁ ++ l₂).lookup k = l₂.lookup k := by
  induction l₁ with
  | nil => rfl
  | cons p t ih =>
    obtain ⟨a, b⟩ := p
    cases hbeq : k == a <;> simp [List.lookup, hbeq] at h ⊢
    exact ih h

theorem seedDefault_keeps {acc : List (String × String)}
    {kv : String × String} {k v : String} (h : acc.lookup k = some v) :
    (seedDefault acc kv).lookup k = some v := by
  unfold seedDefault
  split
  · exact h
  · exact lookup_append_of_some h

theorem seedDefault_seeds {acc : List (String × String)}
    {kv : String × String} (h : acc.lookup kv.1 = none) :
    (seedDefault acc kv).lookup kv.1 = some kv.2 := by
  unfold seedDefault
  rw [if_neg (by simp [h])]
  rw [lookup_append_of_none h]
  simp [List.lookup]

theorem seedDefault_none {acc : List (String × String)}
    {kv : String × String} {k : String} (hk : k ≠ kv.1)
    (h : acc.lookup k = none) :
    (seedDefault acc kv).lookup k = none := by
  unfold seedDefault
  split
  · exact h
  · rw [lookup_append_of_none h]
    have hbeq : (k == kv.1) = false := beq_eq_false_iff_ne.mpr hk
    simp [List.lookup, hbeq]

/-- Claim C5: when the codec name contains an x264/x265-family substring,
the three defaults tune=zerolatency, preset=ultrafast, crf=20 are seeded
only for keys the caller did not supply; caller-supplied values win; keys
outside caller options and defaults do not appear; and for "libx264" with
no caller options the result is exactly the three default pairs. -/
theorem load_codec_options_spec (codec : String)
    (caller : List (String × String))
    (htrig : (strFindHit codec "libx264" || strFindHit codec "libx265") = true) :
    (∀ k v, caller.lookup k = some v →
        (load_codec_options codec caller).lookup k = some v) ∧
    (∀ kv ∈ default_x264_options, caller.lookup kv.1 = none →
        (load_codec_options codec caller).lookup kv.1 = some kv.2) ∧
    (∀ k, caller.lookup k = none → default_x264_options.lookup k = none →
        (load_codec_options codec caller).lookup k = none) ∧
    load_codec_options "libx264" [] = default_x264_options := by
  have hres : load_codec_options codec caller =
      seedDefault (seedDefault (seedDefault caller ("crf", "20"))
        ("preset", "ultrafast")) ("tune", "zerolatency") := by
    rw [load_codec_options, if_pos htrig]
    rfl
  refine ⟨?_, ?_, ?_, by decide⟩
  · intro k v h
    rw [hres]
    exact seedDefault_keeps (seedDefault_keeps (seedDefault_keeps h))
  · intro kv hkv hnone
    rw [hres]
    simp only [default_x264_options, List.mem_cons, List.not_mem_nil,
      or_false] at hkv
    rcases hkv with h | h | h <;> subst h
    · exact seedDefault_keeps (seedDefault_keeps (seedDefault_seeds hnone))
    · exact seedDefault_keeps
        (seedDefault_seeds (seedDefault_none (by decide) hnone))
    · exact seedDefault_seeds
        (seedDefault_none (by decide) (seedDefault_none (by decide) hnone))
  · intro k hcaller hdef
    have hcrf : k ≠ "crf" := by
      intro he
      subst he
      simp [default_x264_options, List.lookup] at hdef
    have hpreset : k ≠ "preset" := by
      intro he
      subst he
      simp [default_x264_options, List.lookup] at hdef
    have htune : k ≠ "tune" := by
      intro he
      subst he
      simp [default_x264_options, List.lookup] at hdef
    rw [hres]
    exact seedDefault_none htune
      (seedDefault_none hpreset (seedDefault_none hcrf hcaller))

theorem load_codec_options_spec_witness :
    ((strFindHit "libx264" "libx264" || strFindHit "libx264" "libx265") = true) ∧
    ((∀ k v, ([("crf", "10")] : List (String × String)).lookup k = some v →
        (load_codec_options "libx264" [("crf", "10")]).lookup k = some v) ∧
    (∀ kv ∈ default_x264_options,
        ([("crf", "10")] : List (String × String)).lookup kv.1 = none →
        (load_codec_options "libx264" [("crf", "10")]).lookup kv.1 = some kv.2) ∧
    (∀ k, ([("crf", "10")] : List (String × String)).lookup k = none →
        default_x264_options.lookup k = none →
        (load_codec_options "libx264" [("crf", "10")]).lookup k = none) ∧
    load_codec_options "libx264" [] = default_x264_options) :=
  ⟨by decide, load_codec_options_spec "libx264" [("crf", "10")] (by decide)⟩

/-! ### Format-negotiation lemmas -/

theorem is_fmt_supported_none (l : List AVPixelFormat) :
    is_fmt_supported AVPixelFormat.NONE l = false := by
  induction l with
  | nil => rfl
  | cons f rest ih =>
    by_cases h : f = AVPixelFormat.NONE
    · simp [is_fmt_supported, h]
    · simp [is_fmt_supported, h, ih]

theorem is_fmt_supported_mem_takeWhile {fmt : AVPixelFormat}
    {l : List AVPixelFormat} (h : is_fmt_supported fmt l = true) :
    fmt ∈ l.takeWhile (fun x => x ≠ AVPixelFormat.NONE) := by
  induction l with
  | nil => simp [is_fmt_supported] at h
  | cons f rest ih =>
    by_cases hf : f = AVPixelFormat.NONE
    · rw [is_fmt_supported, if_pos hf] at h
      exact absurd h (by simp)
    · rw [is_fmt_supported, if_neg hf] at h
      by_cases he : f = fmt
      · subst he
        simp [List.takeWhile, hf]
      · rw [if_neg he] at h
        have hmem := ih h
        simp [List.takeWhile, hf]
        right
        simpa using hmem

theorem is_fmt_supported_append_sentinel {caps : List AVPixelFormat}
    {f : AVPixelFormat} (hnone : AVPixelFormat.NONE ∉ caps) :
    is_fmt_supported f (caps ++ [AVPixelFormat.NONE]) = decide (f ∈ caps) := by
  induction caps with
  | nil =>
    simp [is_fmt_supported]
  | cons c rest ih =>
    have hc : c ≠ AVPixelFormat.NONE := fun he => hnone (he ▸ List.mem_cons_self c rest)
    have hrest : AVPixelFormat.NONE ∉ rest := fun hm => hnone (List.mem_cons_of_mem c hm)
    by_cases he : c = f
    · subst he
      simp [is_fmt_supported, hc]
    · rw [List.cons_append, is_fmt_supported, if_neg hc, if_neg he, ih hrest]
      have hiff : (f ∈ c :: rest) ↔ (f ∈ rest) := by
        constructor
        · intro hm
          rcases List.mem_cons.mp hm with h | h
          · exact absurd h.symm he
          · exact h
        · exact fun hm => List.mem_cons_of_mem c hm
      exact (decide_eq_decide.mpr hiff).symm

/-- Claim C2: on a sentinel-terminated capability list, the code's
`choose_sw_format` computes exactly the spec's ordered-preference
negotiation (native format first, then YUV420P, then the first supported
format). -/
theorem choose_sw_format_refines_spec (p : FrameWriterParams)
    (caps : List AVPixelFormat) (hnone : AVPixelFormat.NONE ∉ caps) :
    choose_sw_format p (caps ++ [AVPixelFormat.NONE]) =
      negotiator_spec (get_input_format p) caps := by
  simp only [choose_sw_format, negotiator_spec]
  rw [is_fmt_supported_append_sentinel hnone,
    is_fmt_supported_append_sentinel hnone]
  by_cases h1 : get_input_format p ∈ caps
  · simp [h1]
  · by_cases h2 : AVPixelFormat.YUV420P ∈ caps
    · simp [h1, h2]
    · rw [if_neg (by simp [h1]), if_neg (by simp [h2])]
      cases caps with
      | nil => simp
      | cons a t =>
        simp only [List.mem_cons] at h1 h2
        push_neg at h1 h2
        simp [h1.1, h1.2, h2.1, h2.2]

theorem choose_sw_format_refines_spec_witness :
    (AVPixelFormat.NONE ∉ [AVPixelFormat.YUV420P]) ∧
    choose_sw_format sw_sample_params
        ([AVPixelFormat.YUV420P] ++ [AVPixelFormat.NONE]) =
      negotiator_spec (get_input_format sw_sample_params)
        [AVPixelFormat.YUV420P] :=
  ⟨by decide, choose_sw_format_refines_spec sw_sample_params
    [AVPixelFormat.YUV420P] (by decide)⟩

/-- Claim C10: for a supported-format list whose first entry is not the
end-of-list sentinel, `choose_sw_format` returns an element of the list
(indeed one appearing before the sentinel); when the list starts with the
sentinel (empty capability set) the last-resort branch returns the
sentinel itself, and the sentinel is never a supported format. -/
theorem choose_sw_format_in_supported (p : FrameWriterParams)
    (l : List AVPixelFormat) (f : AVPixelFormat) (hf : l.head? = some f)
    (hne : f ≠ AVPixelFormat.NONE) :
    choose_sw_format p l ∈ l.takeWhile (fun x => x ≠ AVPixelFormat.NONE) ∧
    (∀ rest, choose_sw_format p (AVPixelFormat.NONE :: rest) =
      AVPixelFormat.NONE) ∧
    (∀ l', is_fmt_supported AVPixelFormat.NONE l' = false) := by
  refine ⟨?_, ?_, is_fmt_supported_none⟩
  · simp only [choose_sw_format]
    by_cases h1 : is_fmt_supported (get_input_format p) l = true
    · rw [if_pos h1]
      exact is_fmt_supported_mem_takeWhile h1
    · rw [if_neg h1]
      by_cases h2 : is_fmt_supported AVPixelFormat.YUV420P l = true
      · rw [if_pos h2]
        exact is_fmt_supported_mem_takeWhile h2
      · rw [if_neg h2]
        cases l with
        | nil => simp at hf
        | cons x rest =>
          have hx : x = f := by simpa using hf
          subst hx
          simp [List.takeWhile, hne]
  · intro rest
    simp [choose_sw_format, is_fmt_supported]

theorem choose_sw_format_in_supported_witness :
    (([AVPixelFormat.YUV420P, AVPixelFormat.NONE] :
        List AVPixelFormat).head? = some AVPixelFormat.YUV420P) ∧
    (AVPixelFormat.YUV420P ≠ AVPixelFormat.NONE) ∧
    (choose_sw_format sw_sample_params
        [AVPixelFormat.YUV420P, AVPixelFormat.NONE] ∈
      ([AVPixelFormat.YUV420P, AVPixelFormat.NONE] :
        List AVPixelFormat).takeWhile (fun x => x ≠ AVPixelFormat.NONE) ∧
    (∀ rest, choose_sw_format sw_sample_params
        (AVPixelFormat.NONE :: rest) = AVPixelFormat.NONE) ∧
    (∀ l', is_fmt_supported AVPixelFormat.NONE l' = false)) :=
  ⟨by decide, by decide, choose_sw_format_in_supported sw_sample_params
    [AVPixelFormat.YUV420P, AVPixelFormat.NONE] AVPixelFormat.YUV420P
    (by decide) (by decide)⟩

/-! ### Vertical flip, hardware-transfer failure -/

/-- Claim C7: with vertical_flip true the effective stride is the negated
4*width and the origin is the start of the last row, so row i is presented
exactly where row (height-1-i) sits without the flip: row order is
reversed. -/
theorem add_frame_flip_reverses_rows (w h i : Nat) (hi : i < h) :
    (effective_layout w h true).2 = -(4 * (w : Int)) ∧
    (effective_layout w h true).1 = 4 * (w : Int) * ((h : Int) - 1) ∧
    row_addr w h true i = row_addr w h false (h - 1 - i) := by
  refine ⟨by simp [effective_layout], by simp [effective_layout], ?_⟩
  have hcast : ((h - 1 - i : Nat) : Int) = (h : Int) - 1 - (i : Int) := by
    omega
  simp [row_addr, effective_layout, hcast]
  ring

theorem add_frame_flip_reverses_rows_witness :
    (1 < 3) ∧
    ((effective_layout 2 3 true).2 = -(4 * (2 : Int)) ∧
    (effective_layout 2 3 true).1 = 4 * (2 : Int) * ((3 : Int) - 1) ∧
    row_addr 2 3 true 1 = row_addr 2 3 false (3 - 1 - 1)) :=
  ⟨by decide, add_frame_flip_reverses_rows 2 3 1 (by decide)⟩

/-- Claim C6: on the hardware path a failed per-frame transfer drops only
that frame: add_frame returns with the encoder's internal state unchanged
and no call into the Muxer, and a subsequent add_frame behaves exactly as
if the failed call had never happened. -/
theorem hw_transfer_failure_drops_frame (hw : Bool) (f : EncFun)
    (st : List Packet) (m : Int) (hhw : hw = true) :
    add_frame hw f st m false = (st, []) ∧
    (∀ m2 ok2, add_frame hw f (add_frame hw f st m false).1 m2 ok2 =
      add_frame hw f st m2 ok2) := by
  subst hhw
  exact ⟨rfl, fun m2 ok2 => rfl⟩

theorem hw_transfer_failure_drops_frame_witness :
    (true = true) ∧
    (add_frame true pts_echo_encoder [] 5 false = ([], []) ∧
    (∀ m2 ok2, add_frame true pts_echo_encoder
        (add_frame true pts_echo_encoder [] 5 false).1 m2 ok2 =
      add_frame true pts_echo_encoder [] m2 ok2)) :=
  ⟨rfl, hw_transfer_failure_drops_frame true pts_echo_encoder [] 5 rfl⟩

/-! ### Session-trace lemmas -/

theorem drain_loop_eq_map (st : List Packet) :
    drain_loop st = st.map finish_frame_event := by
  induction st with
  | nil => rfl
  | cons p rest ih => simp [drain_loop, ih]

theorem run_frames_eq_emitted (hw : Bool) (f : EncFun) :
    ∀ (l : List (Int × Bool)) (st : List Packet),
    run_frames hw f st l =
      ((run_emitted hw f st l).1,
       (run_emitted hw f st l).2.map finish_frame_event) := by
  intro l
  induction l with
  | nil => intro st; rfl
  | cons x rest ih =>
    intro st
    obtain ⟨m, ok⟩ := x
    cases hdrop : hw && !ok
    · cases hout : (f st m).2 <;>
        simp [run_frames, run_emitted, add_frame, hdrop, hout, ih]
    · simp [run_frames, run_emitted, add_frame, hdrop, ih]

theorem session_trace_eq (hw : Bool) (f : EncFun)
    (inputs : List (Int × Bool)) :
    session_trace hw f inputs =
      MuxEvent.header ::
        (((run_emitted hw f [] inputs).2 ++
            (run_emitted hw f [] inputs).1).map finish_frame_event ++
          [MuxEvent.trailer]) := by
  simp [session_trace, run_frames_eq_emitted, destructor_events,
    drain_loop_eq_map]

theorem finish_event_ne_header (p : Packet) :
    finish_frame_event p ≠ MuxEvent.header := by
  simp [finish_frame_event]

theorem finish_event_ne_trailer (p : Packet) :
    finish_frame_event p ≠ MuxEvent.trailer := by
  simp [finish_frame_event]

theorem count_map_finish_header (L : List Packet) :
    (L.map finish_frame_event).count MuxEvent.header = 0 := by
  rw [List.count_eq_zero]
  intro hmem
  obtain ⟨p, _, hp⟩ := List.mem_map.mp hmem
  exact finish_event_ne_header p hp

theorem count_map_finish_trailer (L : List Packet) :
    (L.map finish_frame_event).count MuxEvent.trailer = 0 := by
  rw [List.count_eq_zero]
  intro hmem
  obtain ⟨p, _, hp⟩ := List.mem_map.mp hmem
  exact finish_event_ne_trailer p hp

/-- Claim C1: the whole-session Muxer trace is the header, then every
packet the encoder produced while frames were being submitted, then —
after the destructor's drain loop has forwarded every still-buffered
packet through the very same finish_frame path — the trailer.  The header
occurs exactly once, before every packet; the trailer exactly once, after
every packet including the flushed ones. -/
theorem session_trace_shape (hw : Bool) (f : EncFun)
    (inputs : List (Int × Bool)) :
    session_trace hw f inputs =
      MuxEvent.header ::
        (((run_emitted hw f [] inputs).2 ++
            (run_emitted hw f [] inputs).1).map finish_frame_event ++
          [MuxEvent.trailer]) ∧
    (session_trace hw f inputs).head? = some MuxEvent.header ∧
    (session_trace hw f inputs).getLast? = some MuxEvent.trailer ∧
    (session_trace hw f inputs).count MuxEvent.header = 1 ∧
    (session_trace hw f inputs).count MuxEvent.trailer = 1 := by
  have hshape := session_trace_eq hw f inputs
  refine ⟨hshape, by rw [hshape]; rfl, ?_, ?_, ?_⟩
  · rw [hshape]
    rw [show MuxEvent.header ::
        (((run_emitted hw f [] inputs).2 ++
            (run_emitted hw f [] inputs).1).map finish_frame_event ++
          [MuxEvent.trailer]) =
        (MuxEvent.header ::
          ((run_emitted hw f [] inputs).2 ++
            (run_emitted hw f [] inputs).1).map finish_frame_event) ++
          [MuxEvent.trailer] by simp]
    exact List.getLast?_concat _
  · rw [hshape]
    simp [List.count_cons, List.count_append, count_map_finish_header]
  · rw [hshape]
    simp [List.count_cons, List.count_append, count_map_finish_trailer]

theorem run_emitted_pts (hw : Bool) (f : EncFun)
    (hf : ∀ buf m, (∀ q ∈ (f buf m).1, q ∈ buf ∨ q.pts = m) ∧
      (∀ q, (f buf m).2 = some q → q ∈ buf ∨ q.pts = m)) :
    ∀ (l : List (Int × Bool)) (st : List Packet) (q : Packet),
      (q ∈ (run_emitted hw f st l).1 ∨ q ∈ (run_emitted hw f st l).2) →
      q ∈ st ∨ q.pts ∈ l.map Prod.fst := by
  intro l
  induction l with
  | nil =>
    intro st q hq
    rcases hq with h | h
    · exact Or.inl h
    · simp [run_emitted] at h
  | cons x rest ih =>
    intro st q hq
    obtain ⟨m, ok⟩ := x
    cases hdrop : hw && !ok
    · rw [run_emitted, if_neg (by simp [hdrop])] at hq
      have hsplit :
          q ∈ (run_emitted hw f (f st m).1 rest).1 ∨
            q ∈ (f st m).2.toList ∨
            q ∈ (run_emitted hw f (f st m).1 rest).2 := by
        rcases hq with h | h
        · exact Or.inl h
        · rcases List.mem_append.mp h with h | h
          · exact Or.inr (Or.inl h)
          · exact Or.inr (Or.inr h)
      rcases hsplit with h | h | h
      · rcases ih (f st m).1 q (Or.inl h) with h2 | h2
        · rcases (hf st m).1 q h2 with h3 | h3
          · exact Or.inl h3
          · exact Or.inr (by simp [h3])
        · exact Or.inr (by simp [h2])
      · have h2 : (f st m).2 = some q := by
          cases hout : (f st m).2 <;> simp [hout] at h
          simp [h]
        rcases (hf st m).2 q h2 with h3 | h3
        · exact Or.inl h3
        · exact Or.inr (by simp [h3])
      · rcases ih (f st m).1 q (Or.inr h) with h2 | h2
        · rcases (hf st m).1 q h2 with h3 | h3
          · exact Or.inl h3
          · exact Or.inr (by simp [h3])
        · exact Or.inr (by simp [h2])
    · rw [run_emitted, if_pos (by simp [hdrop])] at hq
      rcases ih st q hq with h2 | h2
      · exact Or.inl h2
      · exact Or.inr (by simp [h2])

/-- Claim C4: every packet the session writes carries its timestamp
rescaled from the pipeline's 1/1000-second clock to the stream's
1/60-second time base: provided the encoder only emits packets whose pts
came from submitted frames (frame pts is the submitted msec,
frame-writer.cpp:297), every written timestamp is the rescale of some
submitted millisecond timestamp, and a submitted 1000 ms rescales to 60. -/
theorem written_packet_ts_rescaled (hw : Bool) (f : EncFun)
    (inputs : List (Int × Bool)) (t : Int) (pl : Nat)
    (hf : ∀ buf m, (∀ q ∈ (f buf m).1, q ∈ buf ∨ q.pts = m) ∧
      (∀ q, (f buf m).2 = some q → q ∈ buf ∨ q.pts = m))
    (hmem : MuxEvent.packet t pl ∈ session_trace hw f inputs) :
    (∃ m, m ∈ inputs.map Prod.fst ∧ t = av_rescale_q m 1 1000 1 60) ∧
    av_rescale_q 1000 1 1000 1 60 = 60 := by
  refine ⟨?_, by decide⟩
  rw [session_trace_eq] at hmem
  rcases List.mem_cons.mp hmem with h | h
  · exact absurd h.symm (by simp)
  · rcases List.mem_append.mp h with h | h
    · obtain ⟨q, hq, he⟩ := List.mem_map.mp h
      have ht : t = av_rescale_q q.pts 1 1000 1 60 := by
        simp [finish_frame_event] at he
        exact he.1.symm
      have hprov := run_emitted_pts hw f hf inputs [] q
        (by rcases List.mem_append.mp hq with h2 | h2
            · exact Or.inr h2
            · exact Or.inl h2)
      rcases hprov with h2 | h2
      · simp at h2
      · exact ⟨q.pts, h2, ht⟩
    · simp at h

theorem written_packet_ts_rescaled_witness :
    (∃ m, m ∈ ([((1000 : Int), true)]).map Prod.fst ∧
      (60 : Int) = av_rescale_q m 1 1000 1 60) ∧
    av_rescale_q 1000 1 1000 1 60 = 60 :=
  written_packet_ts_rescaled false pts_echo_encoder [(1000, true)] 60 0
    (fun buf m =>
      ⟨fun q hq => Or.inl hq,
       fun q hq => Or.inr (by
        simp [pts_echo_encoder] at hq
        rw [← hq])⟩)
    (by decide)

/-! ### Hardware-path activation, scaler construction, teardown -/

/-- Claim C3 counterexample: a configuration with a non-empty hw_device
field but a non-VAAPI codec does not activate the hardware path — the
code keys the hardware path on the codec name containing "vaapi"
(frame-writer.cpp:151), not on hw_device. -/
theorem nonempty_hw_device_without_hw_path :
    sw_sample_params.hw_device ≠ "" ∧
    (init_model sw_sample_params
      [AVPixelFormat.BGR0, AVPixelFormat.NONE]
      (HwConstraints.mk [])).hw_active = false := by
  constructor
  · decide
  · rfl

/-- Claim C3 (amended): the hardware path is activated exactly when the
codec name contains "vaapi"; whenever it is activated the software
pixel-format choice is skipped entirely and the device-side format is the
first format the device constraints report as valid. -/
theorem hw_path_iff_vaapi_codec (p : FrameWriterParams)
    (caps : List AVPixelFormat) (cst : HwConstraints) :
    ((init_model p caps cst).hw_active = hw_requested p) ∧
    (hw_requested p = true →
      (init_model p caps cst).chose_sw = false ∧
      (init_model p caps cst).sws_created = false ∧
      (init_model p caps cst).pix_fmt = AVPixelFormat.VAAPI ∧
      (init_model p caps cst).hw_device_format =
        some (cst.valid_hw_formats.headD AVPixelFormat.NONE)) := by
  cases hreq : hw_requested p <;>
    simp [init_model, hreq]

theorem hw_path_iff_vaapi_codec_witness :
    ((init_model hw_sample_params [] sample_constraints).hw_active =
      hw_requested hw_sample_params) ∧
    ((init_model hw_sample_params [] sample_constraints).chose_sw = false ∧
      (init_model hw_sample_params [] sample_constraints).sws_created = false ∧
      (init_model hw_sample_params [] sample_constraints).pix_fmt =
        AVPixelFormat.VAAPI ∧
      (init_model hw_sample_params [] sample_constraints).hw_device_format =
        some (sample_constraints.valid_hw_formats.headD AVPixelFormat.NONE)) :=
  ⟨(hw_path_iff_vaapi_codec hw_sample_params [] sample_constraints).1,
   (hw_path_iff_vaapi_codec hw_sample_params [] sample_constraints).2
     (by decide)⟩

/-- Claim C8 counterexample: with a software codec whose capability list
contains the caller's native format, the chosen pixel format equals the
native input format, yet `init_codec` still constructs the software
scaler (`init_sws` runs on every software-path initialization,
frame-writer.cpp:161). -/
theorem sws_created_despite_matching_formats :
    (init_model sw_sample_params
      [AVPixelFormat.BGR0, AVPixelFormat.NONE]
      (HwConstraints.mk [])).hw_active = false ∧
    get_input_format sw_sample_params =
      (init_model sw_sample_params
        [AVPixelFormat.BGR0, AVPixelFormat.NONE]
        (HwConstraints.mk [])).pix_fmt ∧
    (init_model sw_sample_params
      [AVPixelFormat.BGR0, AVPixelFormat.NONE]
      (HwConstraints.mk [])).sws_created = true := by
  refine ⟨rfl, ?_, rfl⟩
  rfl

/-- Claim C8 (amended): the software scaler is constructed exactly when
the hardware path is inactive — regardless of whether the formats match —
and when the hardware path is inactive and the native input format equals
the chosen pixel format, submit-frame routes through the direct zero-copy
assignment with no conversion. -/
theorem sws_construction_and_zero_copy (p : FrameWriterParams)
    (caps : List AVPixelFormat) (cst : HwConstraints) :
    ((init_model p caps cst).sws_created = !(hw_requested p)) ∧
    ((init_model p caps cst).hw_active = false →
      get_input_format p = (init_model p caps cst).pix_fmt →
      add_frame_route (init_model p caps cst).hw_active (get_input_format p)
        (init_model p caps cst).pix_fmt = FramePath.zeroCopy) := by
  cases hreq : hw_requested p <;>
    simp [init_model, hreq, add_frame_route]

theorem sws_construction_and_zero_copy_witness :
    ((init_model sw_sample_params
        [AVPixelFormat.BGR0, AVPixelFormat.NONE]
        (HwConstraints.mk [])).sws_created =
      !(hw_requested sw_sample_params)) ∧
    add_frame_route
      (init_model sw_sample_params
        [AVPixelFormat.BGR0, AVPixelFormat.NONE]
        (HwConstraints.mk [])).hw_active
      (get_input_format sw_sample_params)
      (init_model sw_sample_params
        [AVPixelFormat.BGR0, AVPixelFormat.NONE]
        (HwConstraints.mk [])).pix_fmt = FramePath.zeroCopy :=
  ⟨(sws_construction_and_zero_copy sw_sample_params
      [AVPixelFormat.BGR0, AVPixelFormat.NONE] (HwConstraints.mk [])).1,
   (sws_construction_and_zero_copy sw_sample_params
      [AVPixelFormat.BGR0, AVPixelFormat.NONE] (HwConstraints.mk [])).2
     (by rfl) (by rfl)⟩

/-- Claim C9 refutation: on the hardware path the destructor never
releases the hardware device context, hardware frame context, or the
hardware frame (frame-writer.cpp:344 is only a TODO comment), although
all three are acquired at construction; moreover even the resources that
are released do not come in reverse acquisition order (the encoder frame
is acquired last but is released only fourth). -/
theorem destructor_leaks_hw_resources :
    (Resource.hwDeviceCtx ∈
        (init_model hw_sample_params [] sample_constraints).acquired ∧
      Resource.hwFrameCtx ∈
        (init_model hw_sample_params [] sample_constraints).acquired ∧
      Resource.hwFrame ∈
        (init_model hw_sample_params [] sample_constraints).acquired) ∧
    (∀ sws nofile : Bool,
      Resource.hwDeviceCtx ∉ destructor_released sws nofile ∧
      Resource.hwFrameCtx ∉ destructor_released sws nofile ∧
      Resource.hwFrame ∉ destructor_released sws nofile) ∧
    destructor_released false false ≠
      (init_model hw_sample_params [] sample_constraints).acquired.reverse ∧
    destructor_released true false ≠
      (init_model sw_sample_params
        [AVPixelFormat.BGR0, AVPixelFormat.NONE]
        (HwConstraints.mk [])).acquired.reverse := by
  refine ⟨⟨?_, ?_, ?_⟩, by decide, ?_, ?_⟩ <;> decide

end WfRecorder
